import Mathlib

/-!
Verification development for the RISC-V CLIC emulation core
(`hw/intc/riscv_clic.c`), the T-Head UART (`hw/char/thead_uart.c`) and the
T-Head timer block (`hw/timer/thead_timer.c`).

The C sources are shallowly embedded: machine integers become `Nat` with
explicit truncation (`% 256`, `&&& mask`) where the C stores into a narrower
type, per-IRQ `uint8_t` arrays become functions `Nat → Nat`, the mutable
device state becomes a structure that every operation maps to a new value,
and paths on which the C program aborts (`assert`, `exit(1)`) return `none`.
-/

namespace ClicModel

/-- Functional update of an array modelled as a function. -/
def updf (f : Nat → Nat) (i v : Nat) : Nat → Nat :=
  fun j => if j = i then v else f j

/-- RISC-V privilege levels, as in `target/riscv`: U=0, S=1, reserved=2, M=3. -/
def PRV_U : Nat := 0

def PRV_S : Nat := 1

def PRV_RESERVED : Nat := 2

def PRV_M : Nat := 3

/-- `CLIC_INTCTL_BASE`: start offset of the per-IRQ registers. -/
def CLIC_INTCTL_BASE : Nat := 0x1000

/-- `CLIC_IRQ_BITS`: maximum of 4096 IRQs. -/
def CLIC_IRQ_BITS : Nat := 12

def CLIC_IRQ_MASK : Nat := (1 <<< CLIC_IRQ_BITS) - 1

def CLIC_INTCFG_MODE_SHIFT : Nat := 8

def CLIC_INTCFG_MASK : Nat := 0x3ff

def CLIC_INTTRIG_START : Nat := 0x10

def CLIC_INTTRIG_END : Nat := 0x2f

def CLIC_INTTRIG_IRQN : Nat := 0x1fff

def CLIC_INTTRIG_MASK : Nat := 0xC0001FFF

def CLIC_INTATTR_MASK : Nat := 0xc7

/--
Modelled from the spec: the cause word is
`exccode = irq | (mode << IRQ_MODE_SHIFT) | (level << IRQ_LEVEL_SHIFT)`
with the irq field occupying the low `IRQ_BITS = 12` bits.  The numeric
values of `RISCV_EXCP_CLIC_MODE_SHIFT` / `RISCV_EXCP_CLIC_LEVEL_SHIFT` live
in `target/riscv/cpu.h`, which is not part of this tree; we place the 2-bit
mode field directly above the irq field and the 8-bit level field above it.
-/
def RISCV_EXCP_CLIC_MODE_SHIFT : Nat := 12

/-- Modelled from the spec: see `RISCV_EXCP_CLIC_MODE_SHIFT`. -/
def RISCV_EXCP_CLIC_LEVEL_SHIFT : Nat := 14

/-- `CLICActiveInterrupt`: one entry of the sorted active list
(two `uint16_t` fields). -/
structure ActiveInt where
  intcfg : Nat
  irq : Nat
deriving DecidableEq, Repr

/-- The portion of `CPURISCVState` the CLIC consults: the current privilege
and the three `mintstatus` interrupt-level fields. -/
structure CPUEnv where
  priv : Nat
  uil : Nat
  sil : Nat
  mil : Nat
deriving Repr

/-- `RISCVCLICState`, restricted to the fields the device logic touches.
`cpu_irq_asserts` counts the calls of `qemu_set_irq(clic->cpu_irq, 1)` and
`cpu_irq_line` records that the line was raised (the reference code only
ever raises). -/
structure ClicState where
  num_sources : Nat
  clicintctlbits : Nat
  mnlbits : Nat
  snlbits : Nat
  unlbits : Nat
  nmbits : Nat
  prv_s : Bool
  prv_u : Bool
  shv_enabled : Bool
  version_v08 : Bool
  clic_size : Nat
  clicintip : Nat → Nat
  clicintie : Nat → Nat
  clicintattr : Nat → Nat
  clicintctl : Nat → Nat
  clicinttrig : Nat → Nat
  mintthresh : Nat
  sintthresh : Nat
  uintthresh : Nat
  exccode : Nat
  active_list : List ActiveInt
  cpu_irq_line : Bool
  cpu_irq_asserts : Nat

/-- `riscv_clic_get_trigger_type`: `get_field(clicintattr[irq], CLIC_INTATTR_TRIG)`
(bits 2:1). -/
def riscv_clic_get_trigger_type (clic : ClicState) (irq : Nat) : Nat :=
  (clic.clicintattr irq >>> 1) &&& 3

/-- `riscv_clic_is_edge_triggered`: `trig & CLIC_INTATTR_TRIG_EDGE`. -/
def riscv_clic_is_edge_triggered (clic : ClicState) (irq : Nat) : Bool :=
  riscv_clic_get_trigger_type clic irq &&& 1 ≠ 0

/-- `riscv_clic_is_shv_interrupt`: the SHV attribute bit, gated by
`shv_enabled`. -/
def riscv_clic_is_shv_interrupt (clic : ClicState) (irq : Nat) : Bool :=
  (clic.clicintattr irq &&& 1 ≠ 0) ∧ clic.shv_enabled

/-- `riscv_clic_get_interrupt_level`: the top `nlbits` of `intctl`, with the
unused low bits read as 1. `nlbits = min(mnlbits, clicintctlbits)`. -/
def riscv_clic_get_interrupt_level (clic : ClicState) (intctl : Nat) : Nat :=
  let nlbits := min clic.mnlbits clic.clicintctlbits
  let mask_il := (((1 <<< nlbits) - 1) <<< (8 - nlbits)) % 256
  let mask_padding := (1 <<< (8 - nlbits)) - 1
  (intctl &&& mask_il) ||| mask_padding

/-- `riscv_clic_get_interrupt_priority`: the next
`clicintctlbits - mnlbits` bits; saturates to 0xFF when that count is
negative (in C, `npbits` is a signed `int`). -/
def riscv_clic_get_interrupt_priority (clic : ClicState) (intctl : Nat) : Nat :=
  if clic.clicintctlbits < clic.mnlbits then 255
  else
    let npbits := clic.clicintctlbits - clic.mnlbits
    let mask_priority := (((1 <<< npbits) - 1) <<< (8 - npbits)) % 256
    let mask_padding := ((1 <<< (8 - npbits)) - 1) % 256
    (intctl &&& mask_priority) ||| mask_padding

/-- `riscv_clic_intcfg_decode`: split a sort key into (mode, level, priority). -/
def riscv_clic_intcfg_decode (clic : ClicState) (intcfg : Nat) :
    Nat × Nat × Nat :=
  (intcfg >>> 8,
   riscv_clic_get_interrupt_level clic (intcfg &&& 0xff),
   riscv_clic_get_interrupt_priority clic (intcfg &&& 0xff))

/-- The per-mode threshold array `il[4]` of `riscv_clic_next_interrupt`.
The C array has four slots; the reachable decode modes are 0..3. -/
def clic_il (clic : ClicState) (env : CPUEnv) : Nat → Nat
  | 0 => max env.uil (clic.uintthresh % 256)
  | 1 => max env.sil (clic.sintthresh % 256)
  | 2 => 0
  | 3 => max env.mil (clic.mintthresh % 256)
  | _ => 0

/-- One delivery of `riscv_clic_next_interrupt`: clear a vectored edge
pending bit, publish the cause word, raise the CPU interrupt line. -/
def clic_deliver (clic : ClicState) (a : ActiveInt) (mode level : Nat) :
    ClicState :=
  let clic1 :=
    if riscv_clic_is_edge_triggered clic a.irq ∧
       riscv_clic_is_shv_interrupt clic a.irq then
      { clic with clicintip := updf clic.clicintip a.irq 0 }
    else clic
  { clic1 with
    exccode := a.irq ||| (mode <<< RISCV_EXCP_CLIC_MODE_SHIFT) |||
               (level <<< RISCV_EXCP_CLIC_LEVEL_SHIFT),
    cpu_irq_line := true,
    cpu_irq_asserts := clic1.cpu_irq_asserts + 1 }

/-- The scan loop of `riscv_clic_next_interrupt` over the active list. -/
def clic_scan (clic : ClicState) (env : CPUEnv) :
    List ActiveInt → ClicState
  | [] => clic
  | a :: rest =>
    let mode := a.intcfg >>> 8
    let level := riscv_clic_get_interrupt_level clic (a.intcfg &&& 0xff)
    if mode < env.priv ∨ (mode = env.priv ∧ level < clic_il clic env mode) then
      clic
    else if clic.clicintip a.irq ≠ 0 then
      clic_deliver clic a mode level
    else
      clic_scan clic env rest

/-- `riscv_clic_next_interrupt`: scan the active list for the
highest-priority pending interrupt and deliver it to the hart. -/
def riscv_clic_next_interrupt (clic : ClicState) (env : CPUEnv) : ClicState :=
  clic_scan clic env clic.active_list

/-- `riscv_clic_check_visible`.  `none` models the `exit(1)` paths taken for
an out-of-range stored `nmbits`. -/
def riscv_clic_check_visible (clic : ClicState) (mode irq : Nat) :
    Option Bool :=
  let intattr_mode := (clic.clicintattr irq >>> 6) &&& 3
  if ¬clic.prv_s ∧ ¬clic.prv_u then
    some (decide (mode = PRV_M))
  else if clic.prv_s ∧ clic.prv_u then
    match clic.nmbits with
    | 0 => some (decide (mode = PRV_M))
    | 1 => some (decide (mode = PRV_M ∨ intattr_mode ≤ PRV_S))
    | 2 => some (decide (intattr_mode ≤ mode))
    | _ => none
  else
    match clic.nmbits with
    | 0 => some (decide (mode = PRV_M))
    | 1 => some (decide (mode = PRV_M ∨ intattr_mode ≤ PRV_S))
    | _ => none

/-- `riscv_clic_validate_intip`: software writes of the pending bit are
accepted only for edge-triggered interrupts. -/
def riscv_clic_validate_intip (clic : ClicState) (irq : Nat) : Bool :=
  riscv_clic_is_edge_triggered clic irq

/-- `riscv_clic_update_intip`: latch `!!value` and rerun arbitration. -/
def riscv_clic_update_intip (clic : ClicState) (env : CPUEnv)
    (irq value : Nat) : ClicState :=
  riscv_clic_next_interrupt
    { clic with clicintip := updf clic.clicintip irq (if value ≠ 0 then 1 else 0) }
    env

/-- `riscv_clic_validate_intattr`: an `attr.mode` above the current
privilege is rejected (the qtest bypass is not modelled). -/
def riscv_clic_validate_intattr (env : CPUEnv) (value : Nat) : Bool :=
  let mode := (value >>> 6) &&& 3
  decide (mode ≤ env.priv)

/-- `riscv_clic_effective_mode`: WARL remap of the requested mode under
`nmbits`.  The C asserts `nmbits <= 2`; callers establish this, so the
unreachable default branch returns the raw mode.  Likewise the
`assert(clic->prv_u)` in the `nmbits = 1` branch is left implicit. -/
def riscv_clic_effective_mode (clic : ClicState) (intattr : Nat) : Nat :=
  let mode := (intattr >>> 6) &&& 3
  match clic.nmbits with
  | 0 => PRV_M
  | 1 => if mode ≤ PRV_S then (if clic.prv_s then PRV_S else PRV_U) else PRV_M
  | 2 => mode
  | _ => mode

/-- `riscv_clic_get_irq`: per-IRQ registers are a quartet of bytes. -/
def riscv_clic_get_irq (addr : Nat) : Nat :=
  addr / 4

/-- `riscv_clic_encode_priority`: the compound sort key
`((intcfg & CLIC_INTCFG_MASK) << CLIC_IRQ_BITS) | (irq & CLIC_IRQ_MASK)`. -/
def riscv_clic_encode_priority (a : ActiveInt) : Nat :=
  ((a.intcfg &&& CLIC_INTCFG_MASK) <<< CLIC_IRQ_BITS) ||| (a.irq &&& CLIC_IRQ_MASK)

/-- Insert an entry into a list kept in descending `encode_priority` order. -/
def clic_sort_insert (x : ActiveInt) : List ActiveInt → List ActiveInt
  | [] => [x]
  | y :: ys =>
    if riscv_clic_encode_priority y < riscv_clic_encode_priority x then
      x :: y :: ys
    else
      y :: clic_sort_insert x ys

/-- The `qsort` call with comparator `riscv_clic_active_compare`: sort the
active list in descending key order.  The key is injective on the entries
the device stores, so any comparison sort computes the same list. -/
def clic_sort (l : List ActiveInt) : List ActiveInt :=
  l.foldr clic_sort_insert []

/-- libc `bsearch` over `arr[lo..hi)` for an entry whose compound key equals
`key` (the comparator `riscv_clic_active_compare` orders descending, so a
smaller element key sends the search left).  Returns the index found.  The
`fuel` argument only bounds the recursion depth; each step shrinks the
interval, so any fuel of at least `hi - lo` gives the untruncated search. -/
def clic_bsearch_go (key : Nat) (arr : List ActiveInt) :
    Nat → Nat → Nat → Option Nat
  | 0, _, _ => none
  | fuel + 1, lo, hi =>
    if lo < hi then
      let idx := (lo + hi) / 2
      let e := riscv_clic_encode_priority (arr.getD idx ⟨0, 0⟩)
      if e < key then clic_bsearch_go key arr fuel lo idx
      else if key < e then clic_bsearch_go key arr fuel (idx + 1) hi
      else some idx
    else none

/-- `bsearch(&key, active_list, active_count, ...)`. -/
def clic_bsearch (key : ActiveInt) (arr : List ActiveInt) : Option Nat :=
  clic_bsearch_go (riscv_clic_encode_priority key) arr arr.length 0 arr.length

/-- Little-endian bytes of one `CLICActiveInterrupt`
(`uint16_t intcfg; uint16_t irq;`). -/
def activeint_bytes (a : ActiveInt) : List Nat :=
  [a.intcfg % 256, a.intcfg / 256 % 256, a.irq % 256, a.irq / 256 % 256]

/-- The active-list array viewed as raw bytes. -/
def active_list_bytes (l : List ActiveInt) : List Nat :=
  l.flatMap activeint_bytes

/-- Rebuild entries from raw bytes (4 bytes each, little-endian). -/
def bytes_to_active : List Nat → List ActiveInt
  | b0 :: b1 :: b2 :: b3 :: rest =>
    ⟨b0 + 256 * b1, b2 + 256 * b3⟩ :: bytes_to_active rest
  | _ => []

/-- The element removal of `riscv_clic_update_intie`:
`sz = --active_count - elem; memmove(&result[0], &result[1], sz);`.
The C passes the element count `sz` as the *byte* count of the `memmove`,
so only `sz` bytes (not `sz` entries) are shifted down; the embedding
reproduces this byte-for-byte. The first `active_count - 1` entries of the
resulting byte image form the new list. -/
def clic_remove_at (l : List ActiveInt) (elem : Nat) : List ActiveInt :=
  let count := l.length
  let newCount := count - 1
  let sz := newCount - elem
  let bytes := active_list_bytes l
  let newBytes :=
    bytes.take (4 * elem) ++
    ((bytes.drop (4 * elem + 4)).take sz) ++
    bytes.drop (4 * elem + sz)
  bytes_to_active (newBytes.take (4 * newCount))

/-- `riscv_clic_update_intie`: latch `!!new_intie`, add to or remove from
the active list, re-sort, rerun arbitration.  `none` models the
`assert(result)` failing when the removal key is absent from the list. -/
def riscv_clic_update_intie (clic : ClicState) (env : CPUEnv)
    (mode irq new_intie : Nat) : Option ClicState :=
  let old_intie := clic.clicintie irq
  let clic :=
    { clic with
      clicintie := updf clic.clicintie irq (if new_intie ≠ 0 then 1 else 0) }
  let listed : Option (List ActiveInt) :=
    if new_intie ≠ 0 ∧ old_intie = 0 then
      let intcfg := ((mode <<< CLIC_INTCFG_MODE_SHIFT) ||| clic.clicintctl irq) % 65536
      some (clic.active_list ++ [⟨intcfg, irq % 65536⟩])
    else if new_intie = 0 ∧ old_intie ≠ 0 then
      let key : ActiveInt := ⟨((mode <<< 8) ||| clic.clicintctl irq) % 65536, irq % 65536⟩
      match clic_bsearch key clic.active_list with
      | none => none
      | some elem => some (clic_remove_at clic.active_list elem)
    else
      some clic.active_list
  match listed with
  | none => none
  | some l =>
    some (riscv_clic_next_interrupt { clic with active_list := clic_sort l } env)

/-- `set_field(value, CLIC_INTATTR_MODE, m)` on the 64-bit write value. -/
def set_intattr_mode (value m : Nat) : Nat :=
  (value &&& 0xFFFFFFFFFFFFFF3F) ||| (m <<< 6)

/-- `riscv_clic_hart_write` specialised to one byte (`size = 1`); the C
recursion only ever re-enters itself with `size = 1`.  The per-IRQ
`uint8_t` stores truncate to a byte, while the change-detection compares
read the untruncated 64-bit value, as in the C. -/
def riscv_clic_hart_write1 (clic : ClicState) (env : CPUEnv)
    (addr value mode irq : Nat) : Option ClicState :=
  if clic.num_sources ≤ irq then some clic
  else
    match addr % 4 with
    | 0 =>
      if riscv_clic_validate_intip clic irq then
        if value ≠ clic.clicintip irq then
          some (riscv_clic_update_intip clic env irq value)
        else some clic
      else some clic
    | 1 =>
      if clic.clicintie irq ≠ value then
        riscv_clic_update_intie clic env mode irq value
      else some clic
    | 2 =>
      let field_mode :=
        let m := riscv_clic_effective_mode clic value
        if m = PRV_RESERVED then (clic.clicintattr irq >>> 6) &&& 3 else m
      let value := set_intattr_mode value field_mode
      if riscv_clic_validate_intattr env value then
        if clic.clicintattr irq ≠ value then
          some (riscv_clic_next_interrupt
            { clic with clicintattr := updf clic.clicintattr irq (value % 256) }
            env)
        else some clic
      else some clic
    | _ =>
      if value ≠ clic.clicintctl irq then
        some (riscv_clic_next_interrupt
          { clic with clicintctl := updf clic.clicintctl irq (value % 256) }
          env)
      else some clic

/-- The byte loop of `riscv_clic_hart_write` for a multi-byte access:
bytes `1 .. width-1` are dispatched as single-byte writes. -/
def clic_write_bytes (env : CPUEnv) (addr value mode irq : Nat) :
    ClicState → List Nat → Option ClicState
  | clic, [] => some clic
  | clic, i :: rest => do
    let s ← riscv_clic_hart_write1 clic env (addr + i) ((value >>> (i * 8)) &&& 0xFF)
      mode irq
    clic_write_bytes env addr value mode irq s rest

/-- `riscv_clic_hart_write`.  A multi-byte access starting at the pending
byte handles byte 0 with the full (untruncated) value, then dispatches
bytes `1 .. min(size,4)-1` recursively; at any other starting byte only
that byte is handled. -/
def riscv_clic_hart_write (clic : ClicState) (env : CPUEnv)
    (addr value size mode irq : Nat) : Option ClicState :=
  if clic.num_sources ≤ irq then some clic
  else if addr % 4 = 0 ∧ 1 < size then do
    let s ← riscv_clic_hart_write1 clic env addr value mode irq
    clic_write_bytes env addr value mode irq s ((List.range (min size 4)).drop 1)
  else
    riscv_clic_hart_write1 clic env addr value mode irq

/-- `riscv_clic_hart_read` specialised to one byte (`size = 1`). -/
def riscv_clic_hart_read1 (clic : ClicState) (addr irq : Nat) : Nat :=
  if clic.num_sources ≤ irq then 0
  else
    match addr % 4 with
    | 0 => clic.clicintip irq
    | 1 => clic.clicintie irq
    | 2 =>
      let intattr := clic.clicintattr irq &&& CLIC_INTATTR_MASK
      let field_mode := riscv_clic_effective_mode clic intattr
      set_intattr_mode intattr field_mode
    | _ =>
      clic.clicintctl irq ||| ((1 <<< (8 - clic.clicintctlbits)) - 1)

/-- The byte loop of a multi-byte `riscv_clic_hart_read`. -/
def clic_read_bytes (clic : ClicState) (addr irq : Nat) :
    Nat → List Nat → Nat
  | acc, [] => acc
  | acc, i :: rest =>
    clic_read_bytes clic addr irq
      (acc ||| ((riscv_clic_hart_read1 clic (addr + i) irq &&& 0xFF) <<< (i * 8)))
      rest

/-- `riscv_clic_hart_read`.  A multi-byte read starting at the pending byte
concatenates single-byte reads of `addr+1 .. addr+size-1` (with the same
`irq` argument, as in the C); at any other starting byte only that byte is
read. -/
def riscv_clic_hart_read (clic : ClicState) (addr size irq : Nat) : Nat :=
  if clic.num_sources ≤ irq then 0
  else if addr % 4 = 0 ∧ 1 < size then
    clic_read_bytes clic addr irq (clic.clicintip irq)
      ((List.range size).drop 1)
  else
    riscv_clic_hart_read1 clic addr irq

/-- The `nlbits` updates of the `cliccfg` write: each nibble is updated
independently, gated by the view mode and the configured privileges. -/
def clic_write_cliccfg_nlbits (clic : ClicState) (mode value : Nat) : ClicState :=
  let mnlbits := value &&& 0xF
  let snlbits := (value >>> 16) &&& 0xF
  let unlbits := (value >>> 24) &&& 0xF
  let clic := if mnlbits ≤ 8 ∧ mode = PRV_M then { clic with mnlbits } else clic
  let clic :=
    if clic.prv_s ∧ snlbits ≤ 8 ∧ PRV_S ≤ mode then { clic with snlbits } else clic
  if clic.prv_u ∧ unlbits ≤ 8 then { clic with unlbits } else clic

/-- The `cliccfg` write (case 0 of `riscv_clic_write`): the `nlbits`
updates, then `nmbits`, which is only writable from the M view and is
validated against the configured privilege set. -/
def clic_write_cliccfg (clic : ClicState) (mode value : Nat) : ClicState :=
  let nmbits := (value >>> 4) &&& 0x3
  let clic := clic_write_cliccfg_nlbits clic mode value
  if mode = PRV_M then
    if clic.prv_s ∧ clic.prv_u then
      if nmbits ≤ 2 then { clic with nmbits } else clic
    else if clic.prv_s ∨ clic.prv_u then
      if nmbits ≤ 1 then { clic with nmbits } else clic
    else
      if nmbits = 0 then { clic with nmbits := 0 } else clic
  else clic

/-- `riscv_clic_write`: MMIO write through one view.  `none` models the
`assert` on the address range/alignment and the abort paths further down;
a privilege-gated or invalid write is dropped with the state unchanged. -/
def riscv_clic_write (clic : ClicState) (env : CPUEnv)
    (mode addr value size : Nat) : Option ClicState :=
  if clic.clic_size ≤ addr then none
  else if env.priv < mode then some clic
  else if addr < CLIC_INTCTL_BASE then
    if addr % 4 ≠ 0 then none
    else
      let index := addr / 4
      if index = 0 then some (clic_write_cliccfg clic mode value)
      else if CLIC_INTTRIG_START ≤ index ∧ index ≤ CLIC_INTTRIG_END then
        let interrupt_number := value &&& CLIC_INTTRIG_IRQN
        if interrupt_number ≤ clic.num_sources then
          some { clic with
                 clicinttrig := updf clic.clicinttrig (index - CLIC_INTTRIG_START)
                   (value &&& CLIC_INTTRIG_MASK) }
        else some clic
      else if index = 2 then
        if clic.version_v08 then some { clic with mintthresh := value % 2 ^ 32 }
        else some clic
      else some clic
  else
    let addr := addr - CLIC_INTCTL_BASE
    let irq := riscv_clic_get_irq addr
    match riscv_clic_check_visible clic mode irq with
    | none => none
    | some true => riscv_clic_hart_write clic env addr value size mode irq
    | some false => some clic

/-- The `cliccfg` read: only the fields visible to the view mode. -/
def clic_read_cliccfg (clic : ClicState) (mode : Nat) : Nat :=
  let cfg := if mode = PRV_M then clic.mnlbits ||| (clic.nmbits <<< 4) else 0
  let cfg := if clic.prv_s ∧ PRV_S ≤ mode then cfg ||| (clic.snlbits <<< 16) else cfg
  if clic.prv_u then cfg ||| (clic.unlbits <<< 24) else cfg

/-- `riscv_clic_read`: MMIO read through one view.  `none` models the
`assert`/`exit` paths; gated or invalid reads return 0. -/
def riscv_clic_read (clic : ClicState) (env : CPUEnv)
    (mode addr size : Nat) : Option Nat :=
  if clic.clic_size ≤ addr then none
  else if env.priv < mode then some 0
  else if addr < CLIC_INTCTL_BASE then
    if addr % 4 ≠ 0 then none
    else
      let index := addr / 4
      if index = 0 then some (clic_read_cliccfg clic mode)
      else if CLIC_INTTRIG_START ≤ index ∧ index ≤ CLIC_INTTRIG_END then
        some (clic.clicinttrig (index - CLIC_INTTRIG_START) &&& CLIC_INTTRIG_MASK)
      else if index = 2 then
        if clic.version_v08 then some clic.mintthresh else some 0
      else some 0
  else
    let addr := addr - CLIC_INTCTL_BASE
    let irq := riscv_clic_get_irq addr
    match riscv_clic_check_visible clic mode irq with
    | none => none
    | some true => some (riscv_clic_hart_read clic addr size irq)
    | some false => some 0

/-- `riscv_clic_set_irq`: the trigger state machine driven by an input
line.  `level` is the new wire level; `!level` is modelled as its boolean
negation. -/
def riscv_clic_set_irq (clic : ClicState) (env : CPUEnv)
    (id level : Nat) : ClicState :=
  let type := riscv_clic_get_trigger_type clic id
  if level ≠ 0 then
    match type with
    | 0 => riscv_clic_update_intip clic env id level
    | 1 => riscv_clic_update_intip clic env id level
    | 2 => riscv_clic_update_intip clic env id (if level ≠ 0 then 0 else 1)
    | _ => clic
  else
    match type with
    | 0 => riscv_clic_update_intip clic env id level
    | 1 => clic
    | 2 => riscv_clic_update_intip clic env id (if level ≠ 0 then 0 else 1)
    | _ => riscv_clic_update_intip clic env id (if level ≠ 0 then 0 else 1)

/-- `riscv_clic_clean_pending`: the CPU helper that clears one pending bit
without rerunning arbitration. -/
def riscv_clic_clean_pending (clic : ClicState) (irq : Nat) : ClicState :=
  { clic with clicintip := updf clic.clicintip irq 0 }

/-- `riscv_clic_decode_exccode`: split the cause word. -/
def riscv_clic_decode_exccode (exccode : Nat) : Nat × Nat × Nat :=
  (exccode &&& CLIC_IRQ_MASK,
   (exccode >>> RISCV_EXCP_CLIC_MODE_SHIFT) &&& 3,
   (exccode >>> RISCV_EXCP_CLIC_LEVEL_SHIFT) &&& 0xFF)

/-! ## T-Head UART (`hw/char/thead_uart.c`) -/

def lsr_TEMT : Nat := 0x40

def lsr_THRE : Nat := 0x20

def lsr_OE : Nat := 0x2

def lsr_DR : Nat := 0x1

def usr_REF : Nat := 0x10

def usr_RFNE : Nat := 0x8

def INT_NONE : Nat := 0x1

def INT_TX : Nat := 0x2

def INT_RX : Nat := 0x4

/-- Clear the bits of `m` in the `uint32_t` register `x` (`x &= ~m`). -/
def bclr (x m : Nat) : Nat :=
  x &&& (0xFFFFFFFF ^^^ m)

/-- `thead_uart_state`: the register file, the 16-entry receive FIFO, and
the level of the outgoing interrupt line. -/
structure UartState where
  dll : Nat
  dlh : Nat
  ier : Nat
  iir : Nat
  fcr : Nat
  lcr : Nat
  mcr : Nat
  lsr : Nat
  msr : Nat
  usr : Nat
  rx_fifo : Nat → Nat
  rx_pos : Nat
  rx_count : Nat
  rx_trigger : Nat
  irq_level : Bool

/-- `thead_uart_update`: drive the interrupt line from IIR and IER. -/
def thead_uart_update (s : UartState) : UartState :=
  let flags :=
    ((s.iir &&& 0xf) = INT_TX ∧ (s.ier &&& 0x2) ≠ 0) ∨
    ((s.iir &&& 0xf) = INT_RX ∧ (s.ier &&& 0x1) ≠ 0)
  { s with irq_level := flags }

/-- `thead_uart_fcr_update`: recompute the receive trigger threshold from
`fcr[7:6]` and honour the FIFO-reset bit. -/
def thead_uart_fcr_update (s : UartState) : UartState :=
  let s :=
    if s.fcr &&& 0x1 ≠ 0 then
      { s with rx_trigger :=
          match (s.fcr >>> 6) &&& 0x3 with
          | 0 => 1
          | 1 => 4
          | 2 => 8
          | _ => 14 }
    else { s with rx_trigger := 1 }
  if s.fcr &&& 0x2 ≠ 0 then { s with rx_pos := 0, rx_count := 0 } else s

/-- `thead_uart_read`: returns the value and the successor state (RBR and
IIR reads have side effects).  The access size only logs, so the model
omits it. -/
def thead_uart_read (s : UartState) (offset : Nat) : Nat × UartState :=
  match (offset &&& 0xfff) / 4 with
  | 0 =>
    if s.lcr &&& 0x80 ≠ 0 then (s.dll, s)
    else if s.fcr &&& 0x1 ≠ 0 then
      let s := { s with usr := bclr s.usr usr_REF }
      let c := s.rx_fifo s.rx_pos
      let s :=
        if 0 < s.rx_count then
          { s with rx_count := s.rx_count - 1,
                   rx_pos := if s.rx_pos + 1 = 16 then 0 else s.rx_pos + 1 }
        else s
      let s :=
        if s.rx_count = 0 then
          { s with lsr := bclr s.lsr lsr_DR, usr := bclr s.usr usr_RFNE }
        else s
      let s := thead_uart_update { s with iir := (s.iir &&& 0xFFFFFFF0) ||| INT_NONE }
      (c, s)
    else
      let s := { s with usr := bclr (bclr s.usr usr_REF) usr_RFNE,
                        lsr := bclr s.lsr lsr_DR }
      let s := thead_uart_update { s with iir := (s.iir &&& 0xFFFFFFF0) ||| INT_NONE }
      (s.rx_fifo 0, s)
  | 1 => if s.lcr &&& 0x80 ≠ 0 then (s.dlh, s) else (s.ier, s)
  | 2 =>
    if (s.iir &&& 0xf) = INT_TX then
      let s := thead_uart_update { s with iir := (s.iir &&& 0xFFFFFFF0) ||| INT_NONE }
      ((s.iir &&& 0xFFFFFFF0) ||| INT_TX, s)
    else (s.iir, s)
  | 3 => (s.lcr, s)
  | 4 => (s.mcr, s)
  | 5 => (s.lsr, s)
  | 6 => (s.msr, s)
  | 0x1f => (s.usr, s)
  | _ => (0, s)

/-- `thead_uart_write`.  The byte pushed to the character back-end on a THR
write is outside the model; the access size only logs. -/
def thead_uart_write (s : UartState) (offset value : Nat) : UartState :=
  match offset / 4 with
  | 0 =>
    if s.lcr &&& 0x80 ≠ 0 then { s with dll := value % 2 ^ 32 }
    else
      let s := { s with lsr := s.lsr ||| (lsr_THRE ||| lsr_TEMT) }
      let s :=
        if (s.iir &&& 0xf) ≠ INT_RX then
          { s with iir := (s.iir &&& 0xFFFFFFF0) ||| INT_TX }
        else s
      thead_uart_update s
  | 1 =>
    if s.lcr &&& 0x80 ≠ 0 then { s with dlh := value % 2 ^ 32 }
    else
      thead_uart_update
        { s with ier := value % 2 ^ 32,
                 iir := (s.iir &&& 0xFFFFFFF0) ||| INT_TX }
  | 2 =>
    let s :=
      if ((s.fcr &&& 0x1) ^^^ (value &&& 0x1)) ≠ 0 then
        { s with rx_pos := 0, rx_count := 0 }
      else s
    thead_uart_fcr_update { s with fcr := value % 2 ^ 32 }
  | 3 => { s with lcr := value % 2 ^ 32 }
  | 4 => { s with mcr := value % 2 ^ 32 }
  | _ => s

/-- `thead_uart_can_receive`: back-end credit. -/
def thead_uart_can_receive (s : UartState) : Bool :=
  if s.fcr &&& 0x1 ≠ 0 then s.rx_count < 16 else s.rx_count < 1

/-- `thead_uart_receive` for one delivered byte (the C reads only `buf[0]`
per call). -/
def thead_uart_receive (s : UartState) (b : Nat) : UartState :=
  let s := if s.usr &&& usr_REF ≠ 0 then { s with lsr := s.lsr ||| lsr_OE } else s
  if s.fcr &&& 0x1 = 0 then
    thead_uart_update
      { s with rx_fifo := updf s.rx_fifo 0 b,
               usr := s.usr ||| usr_REF ||| usr_RFNE,
               iir := (s.iir &&& 0xFFFFFFF0) ||| INT_RX,
               lsr := s.lsr ||| lsr_DR }
  else
    let slot := s.rx_pos + s.rx_count
    let slot := if 16 ≤ slot then slot - 16 else slot
    let s := { s with rx_fifo := updf s.rx_fifo slot b,
                      rx_count := s.rx_count + 1,
                      lsr := s.lsr ||| lsr_DR,
                      usr := s.usr ||| usr_RFNE }
    let s := if s.rx_count = 16 then { s with usr := s.usr ||| usr_REF } else s
    thead_uart_update { s with iir := (s.iir &&& 0xFFFFFFF0) ||| INT_RX }

/-- `thead_uart_init`: reset values of the register file. -/
def uart_reset : UartState :=
  { dll := 0, dlh := 0x4, ier := 0, iir := 0x1, fcr := 0, lcr := 0, mcr := 0,
    lsr := 0x60, msr := 0, usr := 0x6, rx_fifo := fun _ => 0, rx_pos := 0,
    rx_count := 0, rx_trigger := 1, irq_level := false }

/-! ## T-Head timer block (`hw/timer/thead_timer.c`) -/

def TIMER_CTRL_ENABLE : Nat := 1

def TIMER_CTRL_MODE : Nat := 2

def TIMER_CTRL_IE : Nat := 4

/-- The per-channel register state of `thead_timer_state` consulted by
`thead_timer_reload`. -/
structure TheadTimerState where
  control : Nat → Nat
  limit : Nat → Nat

/-- `thead_timer_reload`: the pair `(limit, reload)` handed to
`ptimer_set_limit`.  Both branches of the `TIMER_CTRL_MODE` test compute
`s->limit[index]`. -/
def thead_timer_reload (s : TheadTimerState) (reload index : Nat) : Nat × Nat :=
  let limit :=
    if s.control index &&& TIMER_CTRL_MODE ≠ 0 then s.limit index
    else s.limit index
  (limit, reload)

/-- The simplified reload the spec describes: unconditionally use
`s->limit[index]`. -/
def thead_timer_reload_simple (s : TheadTimerState) (reload index : Nat) :
    Nat × Nat :=
  (s.limit index, reload)

/-! ## Specification-side definitions

These follow the wording of the specification (not the C), and are compared
with the embedded code by the theorems below. -/

/-- Per-mode threshold from the spec:
`il[m] = max(cpu_threshold[m], software_threshold[m] & 0xff)`, reserved slot
`il[2] = 0`. -/
def spec_il (clic : ClicState) (env : CPUEnv) (m : Nat) : Nat :=
  if m = PRV_U then max env.uil (clic.uintthresh &&& 0xff)
  else if m = PRV_S then max env.sil (clic.sintthresh &&& 0xff)
  else if m = PRV_RESERVED then 0
  else if m = PRV_M then max env.mil (clic.mintthresh &&& 0xff)
  else 0

/-- The spec's stop condition for the arbitration scan: the entry decodes
to `mode < current_priv`, or to `mode == current_priv` with
`level < il[mode]`. -/
def spec_blocks (clic : ClicState) (env : CPUEnv) (a : ActiveInt) : Bool :=
  let mode := a.intcfg >>> 8
  let level := riscv_clic_get_interrupt_level clic (a.intcfg &&& 0xff)
  decide (mode < env.priv ∨ (mode = env.priv ∧ level < spec_il clic env mode))

/-- The spec's skip condition: an entry is delivered only if its pending
bit is set. -/
def spec_pending (clic : ClicState) (a : ActiveInt) : Bool :=
  decide (clic.clicintip a.irq ≠ 0)

/-- The spec's valid range for `cliccfg.nmbits` given the configured
privilege set: M-only admits only 0, two privilege levels admit at most 1,
three admit at most 2. -/
def spec_nmbits_valid (clic : ClicState) (n : Nat) : Bool :=
  if clic.prv_s ∧ clic.prv_u then decide (n ≤ 2)
  else if clic.prv_s ∨ clic.prv_u then decide (n ≤ 1)
  else decide (n = 0)

/-- Invariant: every stored `clicintip`/`clicintie` byte is 0 or 1. -/
def clic_ip_ie_inv (clic : ClicState) : Prop :=
  ∀ i, clic.clicintip i ≤ 1 ∧ clic.clicintie i ≤ 1

/-! ## Concrete device instances used by the scenario theorems -/

/-- A machine-mode-only CLIC as instantiated by the `smartl` board:
256 sources, `clicintctlbits = 3`, no S/U views (so `nmbits = 0` after
realize), hardware vectoring enabled; `mnlbits` programmed to 1 as in the
spec's arbitration scenario. -/
def clic0 : ClicState :=
  { num_sources := 256, clicintctlbits := 3, mnlbits := 1, snlbits := 0,
    unlbits := 0, nmbits := 0, prv_s := false, prv_u := false,
    shv_enabled := true, version_v08 := true, clic_size := 0x1000 + 4 * 256,
    clicintip := fun _ => 0, clicintie := fun _ => 0,
    clicintattr := fun _ => 0, clicintctl := fun _ => 0,
    clicinttrig := fun _ => 0, mintthresh := 0, sintthresh := 0,
    uintthresh := 0, exccode := 0, active_list := [], cpu_irq_line := false,
    cpu_irq_asserts := 0 }

/-- A hart sitting in M-mode with all `mintstatus` threshold fields zero
(the reset state). -/
def envM : CPUEnv :=
  { priv := PRV_M, uil := 0, sil := 0, mil := 0 }

/-- The spec's end-to-end arbitration scenario, driven through the M-mode
view: program `ctl[25]=0xBF`, `ctl[26]=0x3F`, `attr=0xC3` and `ie=1` for
both, then write `ip[25]=1`, `ip[26]=1`, and pulse input line 25
low-to-high. -/
def c2_run : Option ClicState := do
  let s ← riscv_clic_write clic0 envM PRV_M (0x1000 + 4 * 25 + 3) 0xBF 1
  let s ← riscv_clic_write s envM PRV_M (0x1000 + 4 * 26 + 3) 0x3F 1
  let s ← riscv_clic_write s envM PRV_M (0x1000 + 4 * 25 + 2) 0xC3 1
  let s ← riscv_clic_write s envM PRV_M (0x1000 + 4 * 26 + 2) 0xC3 1
  let s ← riscv_clic_write s envM PRV_M (0x1000 + 4 * 25 + 1) 1 1
  let s ← riscv_clic_write s envM PRV_M (0x1000 + 4 * 26 + 1) 1 1
  let s ← riscv_clic_write s envM PRV_M (0x1000 + 4 * 25 + 0) 1 1
  let s ← riscv_clic_write s envM PRV_M (0x1000 + 4 * 26 + 0) 1 1
  let s := riscv_clic_set_irq s envM 25 0
  some (riscv_clic_set_irq s envM 25 1)

/-- A two-source M-mode-only CLIC for the active-list scenarios. -/
def c5_clic : ClicState :=
  { clic0 with num_sources := 2, clic_size := 0x1000 + 4 * 2 }

/-- Enable IRQ 0, then change its `clicintctl` while it stays enabled. -/
def c5_run2 : Option ClicState := do
  let s ← riscv_clic_write c5_clic envM PRV_M (0x1000 + 1) 1 1
  riscv_clic_write s envM PRV_M (0x1000 + 3) 5 1

/-- ... and afterwards disable IRQ 0 again. -/
def c5_run3 : Option ClicState := do
  let s ← c5_run2
  riscv_clic_write s envM PRV_M (0x1000 + 1) 0 1

/-- UART scenario: enable the FIFO with receive trigger threshold 4
(`fcr[7:6] = 01`), unmask the RX interrupt, then deliver three bytes from
the back-end. -/
def c6_run : UartState :=
  let s := thead_uart_write uart_reset 8 0x41
  let s := thead_uart_write s 4 0x1
  let s := thead_uart_receive s 0x61
  let s := thead_uart_receive s 0x62
  thead_uart_receive s 0x63

/-- A one-source M-mode-only CLIC whose IRQ 0 is configured
negative-edge-triggered (`attr = 0x06`). -/
def c8_clic : ClicState :=
  { clic0 with
    num_sources := 1,
    clic_size := 0x1000 + 4,
    clicintattr := updf (fun _ => 0) 0 0x06 }

/-! ## Helper lemmas -/

theorem and_255_eq_mod (x : Nat) : x &&& 255 = x % 256 := by
  simpa using Nat.and_pow_two_sub_one_eq_mod x 8

theorem clic_il_eq_spec_il (clic : ClicState) (env : CPUEnv) (m : Nat) :
    clic_il clic env m = spec_il clic env m := by
  match m with
  | 0 => simp [clic_il, spec_il, PRV_U, and_255_eq_mod]
  | 1 => simp [clic_il, spec_il, PRV_U, PRV_S, and_255_eq_mod]
  | 2 => simp [clic_il, spec_il, PRV_U, PRV_S, PRV_RESERVED]
  | 3 =>
    simp [clic_il, spec_il, PRV_U, PRV_S, PRV_RESERVED, PRV_M, and_255_eq_mod]
  | n + 4 => simp [clic_il, spec_il, PRV_U, PRV_S, PRV_RESERVED, PRV_M]

theorem clic_scan_eq_or_deliver (clic : ClicState) (env : CPUEnv) :
    ∀ l : List ActiveInt,
      clic_scan clic env l = clic ∨
      ∃ a mode level, clic_scan clic env l = clic_deliver clic a mode level := by
  intro l
  induction l with
  | nil => exact Or.inl rfl
  | cons a rest ih =>
    by_cases h1 : a.intcfg >>> 8 < env.priv ∨
        (a.intcfg >>> 8 = env.priv ∧
          riscv_clic_get_interrupt_level clic (a.intcfg &&& 0xff) <
            clic_il clic env (a.intcfg >>> 8))
    · exact Or.inl (by simp [clic_scan, h1])
    · by_cases h2 : clic.clicintip a.irq ≠ 0
      · exact Or.inr ⟨a, a.intcfg >>> 8,
          riscv_clic_get_interrupt_level clic (a.intcfg &&& 0xff),
          by simp [clic_scan, h1, h2]⟩
      · simpa [clic_scan, h1, h2] using ih

theorem clic_deliver_proj (clic : ClicState) (a : ActiveInt) (mode level : Nat) :
    (clic_deliver clic a mode level).num_sources = clic.num_sources ∧
    (clic_deliver clic a mode level).clicintctlbits = clic.clicintctlbits ∧
    (clic_deliver clic a mode level).clic_size = clic.clic_size ∧
    (clic_deliver clic a mode level).nmbits = clic.nmbits ∧
    (clic_deliver clic a mode level).prv_s = clic.prv_s ∧
    (clic_deliver clic a mode level).prv_u = clic.prv_u ∧
    (clic_deliver clic a mode level).clicintattr = clic.clicintattr ∧
    (clic_deliver clic a mode level).clicintctl = clic.clicintctl ∧
    (clic_deliver clic a mode level).clicintie = clic.clicintie ∧
    (clic_deliver clic a mode level).shv_enabled = clic.shv_enabled ∧
    (clic_deliver clic a mode level).mnlbits = clic.mnlbits ∧
    (clic_deliver clic a mode level).active_list = clic.active_list := by
  by_cases hc : riscv_clic_is_edge_triggered clic a.irq ∧
      riscv_clic_is_shv_interrupt clic a.irq <;>
    simp [clic_deliver, hc]

theorem clic_scan_frame (clic : ClicState) (env : CPUEnv) (l : List ActiveInt) :
    (clic_scan clic env l).num_sources = clic.num_sources ∧
    (clic_scan clic env l).clicintctlbits = clic.clicintctlbits ∧
    (clic_scan clic env l).clic_size = clic.clic_size ∧
    (clic_scan clic env l).nmbits = clic.nmbits ∧
    (clic_scan clic env l).prv_s = clic.prv_s ∧
    (clic_scan clic env l).prv_u = clic.prv_u ∧
    (clic_scan clic env l).clicintattr = clic.clicintattr ∧
    (clic_scan clic env l).clicintctl = clic.clicintctl ∧
    (clic_scan clic env l).clicintie = clic.clicintie ∧
    (clic_scan clic env l).shv_enabled = clic.shv_enabled ∧
    (clic_scan clic env l).mnlbits = clic.mnlbits ∧
    (clic_scan clic env l).active_list = clic.active_list := by
  rcases clic_scan_eq_or_deliver clic env l with h | ⟨a, m, lv, h⟩ <;> rw [h]
  · simp
  · exact clic_deliver_proj clic a m lv

theorem clic_scan_inv (clic : ClicState) (env : CPUEnv) (l : List ActiveInt)
    (h : clic_ip_ie_inv clic) : clic_ip_ie_inv (clic_scan clic env l) := by
  rcases clic_scan_eq_or_deliver clic env l with h' | ⟨a, m, lv, h'⟩ <;> rw [h']
  · exact h
  · intro i
    by_cases hc : riscv_clic_is_edge_triggered clic a.irq ∧
        riscv_clic_is_shv_interrupt clic a.irq
    · refine ⟨?_, by simpa [clic_deliver, hc] using (h i).2⟩
      by_cases hi : i = a.irq <;> simp [clic_deliver, hc, updf, hi, (h i).1]
    · simpa [clic_deliver, hc] using h i

theorem clic_scan_find_spec (clic : ClicState) (env : CPUEnv) :
    ∀ l : List ActiveInt,
      match l.find? (fun a => spec_blocks clic env a || spec_pending clic a) with
      | none => clic_scan clic env l = clic
      | some a =>
        if spec_blocks clic env a then
          clic_scan clic env l = clic
        else
          clic_scan clic env l =
            { clic with
              clicintip :=
                if riscv_clic_is_edge_triggered clic a.irq ∧
                   riscv_clic_is_shv_interrupt clic a.irq then
                  updf clic.clicintip a.irq 0
                else clic.clicintip,
              exccode := a.irq |||
                ((a.intcfg >>> 8) <<< RISCV_EXCP_CLIC_MODE_SHIFT) |||
                (riscv_clic_get_interrupt_level clic (a.intcfg &&& 0xff) <<<
                  RISCV_EXCP_CLIC_LEVEL_SHIFT),
              cpu_irq_line := true,
              cpu_irq_asserts := clic.cpu_irq_asserts + 1 } := by
  intro l
  induction l with
  | nil => simp [List.find?, clic_scan]
  | cons a rest ih =>
    by_cases hb : a.intcfg >>> 8 < env.priv ∨
        (a.intcfg >>> 8 = env.priv ∧
          riscv_clic_get_interrupt_level clic (a.intcfg &&& 0xff) <
            clic_il clic env (a.intcfg >>> 8))
    · have hbs : spec_blocks clic env a = true := by
        simp only [spec_blocks, decide_eq_true_eq, ← clic_il_eq_spec_il]
        exact hb
      rw [List.find?_cons_of_pos _ (by simp [hbs])]
      simp only [hbs, if_true]
      simp [clic_scan, hb]
    · have hbs : spec_blocks clic env a = false := by
        simp only [spec_blocks, decide_eq_false_iff_not, ← clic_il_eq_spec_il]
        exact hb
      by_cases hp : clic.clicintip a.irq ≠ 0
      · have hps : spec_pending clic a = true := by
          simpa [spec_pending] using hp
        rw [List.find?_cons_of_pos _ (by simp [hbs, hps])]
        simp only [hbs, Bool.false_eq_true, if_false]
        have hscan : clic_scan clic env (a :: rest) =
            clic_deliver clic a (a.intcfg >>> 8)
              (riscv_clic_get_interrupt_level clic (a.intcfg &&& 0xff)) := by
          simp [clic_scan, hb, hp]
        rw [hscan]
        by_cases hc : riscv_clic_is_edge_triggered clic a.irq ∧
            riscv_clic_is_shv_interrupt clic a.irq <;>
          simp [clic_deliver, hc]
      · have hps : spec_pending clic a = false := by
          simpa [spec_pending] using hp
        rw [List.find?_cons_of_neg _ (by simp [hbs, hps])]
        have hscan : clic_scan clic env (a :: rest) = clic_scan clic env rest := by
          simp [clic_scan, hb, hp]
        rw [hscan]
        exact ih

/-! ## Claim theorems -/

/-- C1: the arbitration scan of `riscv_clic_next_interrupt` walks the
active list in order (the device keeps it sorted descending by the compound
key) with per-mode thresholds `il[U] = max(uil, uintthresh & 0xff)`,
`il[S] = max(sil, sintthresh & 0xff)`, `il[2] = 0`,
`il[M] = max(mil, mintthresh & 0xff)`; it stops delivering nothing at the
first entry decoding to `mode < priv` or `mode = priv` with
`level < il[mode]`, skips entries with a clear pending bit, and at the
first pending entry publishes
`cause = irq | mode << MODE_SHIFT | level << LEVEL_SHIFT`, raises the CPU
line once, auto-clears a vectored-edge pending bit, and changes nothing
else — at most one interrupt per invocation. -/
theorem riscv_clic_next_interrupt_spec (clic : ClicState) (env : CPUEnv) :
    match clic.active_list.find?
        (fun a => spec_blocks clic env a || spec_pending clic a) with
    | none => riscv_clic_next_interrupt clic env = clic
    | some a =>
      if spec_blocks clic env a then
        riscv_clic_next_interrupt clic env = clic
      else
        riscv_clic_next_interrupt clic env =
          { clic with
            clicintip :=
              if riscv_clic_is_edge_triggered clic a.irq ∧
                 riscv_clic_is_shv_interrupt clic a.irq then
                updf clic.clicintip a.irq 0
              else clic.clicintip,
            exccode := a.irq |||
              ((a.intcfg >>> 8) <<< RISCV_EXCP_CLIC_MODE_SHIFT) |||
              (riscv_clic_get_interrupt_level clic (a.intcfg &&& 0xff) <<<
                RISCV_EXCP_CLIC_LEVEL_SHIFT),
            cpu_irq_line := true,
            cpu_irq_asserts := clic.cpu_irq_asserts + 1 } := by
  have h := clic_scan_find_spec clic env clic.active_list
  simpa only [riscv_clic_next_interrupt] using h

/-- C2, counterexample: in the spec's vectored positive-edge scenario the
software writes of `ip[25]` and `ip[26]` each run arbitration and deliver
immediately (auto-clearing the pending bit), so after the pulse the CPU
line has been asserted three times — not once — and `ip[26]` reads 0, not
1. -/
theorem clic_c2_vectored_edge_counterexample :
    (c2_run.map fun s => decide (s.cpu_irq_asserts = 1 ∧ s.clicintip 26 = 1)) =
      some false := by decide

/-- C2, amended: in the scenario with `mnlbits = 1`, `ctl[25] = 0xBF`,
`ctl[26] = 0x3F`, both `attr = 0xC3`, both `ie = 1`, run at reset (M-mode,
thresholds 0): the `ip[25]` write delivers irq 25, the `ip[26]` write
delivers irq 26, and the pulse on line 25 delivers irq 25 again — three
assertions of the CPU line in total; the final cause word's irq field is
25 and both pending bits read 0 (each auto-cleared on its vectored-edge
delivery). -/
theorem clic_c2_vectored_edge_amended :
    (c2_run.map fun s =>
      (s.cpu_irq_asserts, s.exccode &&& CLIC_IRQ_MASK, s.clicintip 25,
       s.clicintip 26, s.cpu_irq_line)) = some (3, 25, 0, 0, true) := by
  decide

/-- C5: evaluating the code at the failing input.  After enabling IRQ 0
(via the M view) and then writing `clicintctl[0] = 5`, the active list
still holds the stale sort key `0x300` even though the current
`(mode, ctl)` encode to `0x305` — `riscv_clic_hart_write` never updates or
re-sorts the list on `ctl`/`attr` writes.  The subsequent `ie = 0` write
then searches the list for key `0x305`, `bsearch` misses, and the
function's own `assert(result)` aborts (modelled by `none`). -/
theorem clic_active_list_stale_intcfg_bug :
    (c5_run2.map fun s => (s.active_list, s.clicintctl 0, s.clicintie 0)) =
      some ([⟨0x300, 0⟩], 5, 1) ∧ c5_run3 = none :=
  ⟨by decide, by rfl⟩

/-- C6, counterexample: with the FIFO enabled and the receive trigger
threshold programmed to 4, delivering only three bytes has already raised
the RX interrupt and set IIR to `INT_RX` — `rx_trigger` is stored but
never consulted by `thead_uart_receive`. -/
theorem thead_uart_fifo_trigger_counterexample :
    (c6_run.irq_level, c6_run.iir &&& 0xf, c6_run.rx_trigger, c6_run.rx_count) =
      (true, INT_RX, 4, 3) := by decide

/-- C8, counterexample: a 2-byte read starting at byte 1 of the IRQ-0
quartet returns only `clicintie[0]` (here 0), not the concatenation of the
byte reads of `clicintie[0]` and `clicintattr[0]`
(`0 ||| 0xC6 <<< 8 = 0xC600`): only accesses starting at byte 0 dispatch
byte-wise. -/
theorem clic_multibyte_access_counterexample :
    riscv_clic_read c8_clic envM PRV_M 0x1001 2 = some 0 ∧
    riscv_clic_read c8_clic envM PRV_M 0x1001 1 = some 0 ∧
    riscv_clic_read c8_clic envM PRV_M 0x1002 1 = some 0xC6 ∧
    (0 : Nat) ≠ 0 ||| (0xC6 <<< 8) :=
  ⟨by decide, by decide, by decide, by decide⟩

/-- C9: `thead_timer_reload` is extensionally equal to the simplified
reload that unconditionally uses `s->limit[index]`, and its result does not
depend on the `TIMER_CTRL_MODE` bit (or any other bit) of
`control[index]`. -/
theorem thead_timer_reload_mode_independent (s : TheadTimerState)
    (reload index : Nat) :
    thead_timer_reload s reload index = thead_timer_reload_simple s reload index ∧
    ∀ v, thead_timer_reload { s with control := updf s.control index v }
          reload index = thead_timer_reload s reload index := by
  constructor
  · simp [thead_timer_reload, thead_timer_reload_simple]
  · intro v
    simp [thead_timer_reload]

theorem check_visible_congr (c1 c2 : ClicState) (mode irq : Nat)
    (h1 : c2.prv_s = c1.prv_s) (h2 : c2.prv_u = c1.prv_u)
    (h3 : c2.nmbits = c1.nmbits) (h4 : c2.clicintattr = c1.clicintattr) :
    riscv_clic_check_visible c2 mode irq = riscv_clic_check_visible c1 mode irq := by
  unfold riscv_clic_check_visible
  rw [h1, h2, h3, h4]

theorem riscv_clic_read_intctl (s : ClicState) (env : CPUEnv)
    (mode irq : Nat)
    (hpriv : mode ≤ env.priv)
    (hvis : riscv_clic_check_visible s mode irq = some true)
    (hirq : irq < s.num_sources)
    (hsz : CLIC_INTCTL_BASE + 4 * irq + 3 < s.clic_size) :
    riscv_clic_read s env mode (CLIC_INTCTL_BASE + 4 * irq + 3) 1 =
      some (s.clicintctl irq ||| ((1 <<< (8 - s.clicintctlbits)) - 1)) := by
  have h1 : ¬s.clic_size ≤ CLIC_INTCTL_BASE + 4 * irq + 3 := not_le.mpr hsz
  have h2 : ¬env.priv < mode := not_lt.mpr hpriv
  have h3 : ¬CLIC_INTCTL_BASE + 4 * irq + 3 < CLIC_INTCTL_BASE := by omega
  have h4 : CLIC_INTCTL_BASE + 4 * irq + 3 - CLIC_INTCTL_BASE = 4 * irq + 3 := by
    omega
  have hget : riscv_clic_get_irq (4 * irq + 3) = irq := by
    simp only [riscv_clic_get_irq]
    omega
  have hmod : (4 * irq + 3) % 4 = 3 := by omega
  have hns : ¬s.num_sources ≤ irq := not_le.mpr hirq
  simp only [riscv_clic_read, h1, if_false, h2, h3, h4, hget, hvis,
    riscv_clic_hart_read, hns, hmod]
  norm_num
  simp only [riscv_clic_hart_read1, hns, if_false, hmod]

/-- C3: after a visible write of byte `w` to `clicintctl[i]`, reading
`clicintctl[i]` back through the same view returns
`w | ((1 << (8 - clicintctlbits)) - 1)` — the unimplemented low bits are
hardwired to 1. -/
theorem clicintctl_write_readback (clic : ClicState) (env : CPUEnv)
    (mode irq w : Nat)
    (hpriv : mode ≤ env.priv)
    (hvis : riscv_clic_check_visible clic mode irq = some true)
    (hirq : irq < clic.num_sources)
    (hsz : CLIC_INTCTL_BASE + 4 * irq + 3 < clic.clic_size)
    (hw : w < 256) :
    (riscv_clic_write clic env mode (CLIC_INTCTL_BASE + 4 * irq + 3) w 1).bind
      (fun s => riscv_clic_read s env mode (CLIC_INTCTL_BASE + 4 * irq + 3) 1) =
    some (w ||| ((1 <<< (8 - clic.clicintctlbits)) - 1)) := by
  have h1 : ¬clic.clic_size ≤ CLIC_INTCTL_BASE + 4 * irq + 3 := not_le.mpr hsz
  have h2 : ¬env.priv < mode := not_lt.mpr hpriv
  have h3 : ¬CLIC_INTCTL_BASE + 4 * irq + 3 < CLIC_INTCTL_BASE := by omega
  have h4 : CLIC_INTCTL_BASE + 4 * irq + 3 - CLIC_INTCTL_BASE = 4 * irq + 3 := by
    omega
  have hget : riscv_clic_get_irq (4 * irq + 3) = irq := by
    simp only [riscv_clic_get_irq]
    omega
  have hmod : (4 * irq + 3) % 4 = 3 := by omega
  have hns : ¬clic.num_sources ≤ irq := not_le.mpr hirq
  simp only [riscv_clic_write, h1, if_false, h2, h3, h4, hget, hvis,
    riscv_clic_hart_write, hns, hmod]
  norm_num
  simp only [riscv_clic_hart_write1, hns, if_false, hmod]
  by_cases hne : w = clic.clicintctl irq
  · rw [if_neg (by simp [hne])]
    rw [Option.some_bind]
    rw [riscv_clic_read_intctl clic env mode irq hpriv hvis hirq hsz, ← hne]
  · rw [if_pos hne, Option.some_bind]
    set clic2 : ClicState :=
      { clic with clicintctl := updf clic.clicintctl irq (w % 256) } with hclic2
    obtain ⟨f1, f2, f3, f4, f5, f6, f7, f8, f9, f10, f11, f12⟩ :=
      clic_scan_frame clic2 env clic2.active_list
    have hnext : riscv_clic_next_interrupt clic2 env =
        clic_scan clic2 env clic2.active_list := rfl
    rw [hnext]
    rw [riscv_clic_read_intctl _ env mode irq hpriv ?_ ?_ ?_]
    · rw [f8, f2]
      have : clic2.clicintctl irq = w % 256 := by simp [hclic2, updf]
      rw [hclic2] at this
      simp only [this]
      rw [Nat.mod_eq_of_lt hw]
      simp [updf]
    · rw [check_visible_congr clic _ mode irq (by rw [f5]) (by rw [f6])
        (by rw [f4]) (by rw [f7])]
      exact hvis
    · rw [f1]
      simpa [hclic2] using hirq
    · rw [f3]
      simpa [hclic2] using hsz

theorem check_visible_isSome (clic : ClicState) (mode irq : Nat)
    (hn : spec_nmbits_valid clic clic.nmbits = true) :
    ∃ b, riscv_clic_check_visible clic mode irq = some b := by
  unfold riscv_clic_check_visible
  unfold spec_nmbits_valid at hn
  by_cases hs : clic.prv_s = true <;> by_cases hu : clic.prv_u = true <;>
    simp [hs, hu] at hn ⊢
  · have h3 : clic.nmbits = 0 ∨ clic.nmbits = 1 ∨ clic.nmbits = 2 := by omega
    rcases h3 with h | h | h <;> rw [h] <;> simp <;> omega
  · have h3 : clic.nmbits = 0 ∨ clic.nmbits = 1 := by omega
    rcases h3 with h | h <;> rw [h] <;> simp <;> omega
  · have h3 : clic.nmbits = 0 ∨ clic.nmbits = 1 := by omega
    rcases h3 with h | h <;> rw [h] <;> simp <;> omega

/-- C4: a one-byte MMIO write to `clicintip[i]` of a level-triggered
interrupt (`trig` bit 0 clear) leaves the whole CLIC state unchanged: the
write is only accepted by `riscv_clic_validate_intip` when the trigger
type is edge.  The hypothesis `spec_nmbits_valid` is the device invariant
that the stored `nmbits` is in range for the configured privileges. -/
theorem clicintip_level_write_noop (clic : ClicState) (env : CPUEnv)
    (mode irq value : Nat)
    (hn : spec_nmbits_valid clic clic.nmbits = true)
    (htrig : riscv_clic_get_trigger_type clic irq &&& 1 = 0)
    (hsz : CLIC_INTCTL_BASE + 4 * irq < clic.clic_size) :
    riscv_clic_write clic env mode (CLIC_INTCTL_BASE + 4 * irq) value 1 =
      some clic := by
  have h1 : ¬clic.clic_size ≤ CLIC_INTCTL_BASE + 4 * irq := not_le.mpr hsz
  by_cases h2 : env.priv < mode
  · simp [riscv_clic_write, h1, h2]
  · have h3 : ¬CLIC_INTCTL_BASE + 4 * irq < CLIC_INTCTL_BASE := by omega
    have h4 : CLIC_INTCTL_BASE + 4 * irq - CLIC_INTCTL_BASE = 4 * irq := by omega
    have hget : riscv_clic_get_irq (4 * irq) = irq := by
      simp only [riscv_clic_get_irq]
      omega
    have hmod : (4 * irq) % 4 = 0 := by omega
    simp only [riscv_clic_write, h1, if_false, h2, h3, h4, hget]
    obtain ⟨b, hb⟩ := check_visible_isSome clic mode irq hn
    rw [hb]
    cases b
    · rfl
    · simp only [riscv_clic_hart_write]
      by_cases hns : clic.num_sources ≤ irq
      · simp [hns]
      · have hedge : riscv_clic_validate_intip clic irq = false := by
          simp [riscv_clic_validate_intip, riscv_clic_is_edge_triggered, htrig]
        simp [hns, riscv_clic_hart_write1, hmod, hedge]

theorem clic_write_cliccfg_nlbits_frame (clic : ClicState) (mode value : Nat) :
    (clic_write_cliccfg_nlbits clic mode value).nmbits = clic.nmbits ∧
    (clic_write_cliccfg_nlbits clic mode value).prv_s = clic.prv_s ∧
    (clic_write_cliccfg_nlbits clic mode value).prv_u = clic.prv_u := by
  simp only [clic_write_cliccfg_nlbits]
  split_ifs <;> simp_all

set_option maxRecDepth 2048 in
/-- C7: a `cliccfg` write from the M view stores the written `nmbits`
field exactly when it is in the valid range for the configured privilege
set (M-only: only 0; two privilege levels: at most 1; three: at most 2);
an out-of-range value leaves the stored field unchanged. -/
theorem cliccfg_nmbits_warl (clic : ClicState) (env : CPUEnv) (value size : Nat)
    (hp : PRV_M ≤ env.priv) (hs : 0 < clic.clic_size) :
    (riscv_clic_write clic env PRV_M 0 value size).map (fun s => s.nmbits) =
      some (if spec_nmbits_valid clic ((value >>> 4) &&& 3) then
              (value >>> 4) &&& 3
            else clic.nmbits) := by
  have h1 : ¬clic.clic_size ≤ 0 := by omega
  have h2 : ¬env.priv < PRV_M := not_lt.mpr hp
  have h0 : (0 : Nat) < CLIC_INTCTL_BASE := by norm_num [CLIC_INTCTL_BASE]
  simp only [riscv_clic_write, h1, if_false, h2, h0, if_true]
  norm_num
  obtain ⟨g1, g2, g3⟩ := clic_write_cliccfg_nlbits_frame clic PRV_M value
  set c1 := clic_write_cliccfg_nlbits clic PRV_M value with hc1
  unfold clic_write_cliccfg
  rw [← hc1]
  unfold spec_nmbits_valid
  simp only [g2, g3]
  clear hc1
  clear_value c1
  by_cases hsu : clic.prv_s = true <;> by_cases hu : clic.prv_u = true <;>
    simp only [hsu, hu] <;> split_ifs <;>
    (try simp only [decide_eq_true_eq] at *) <;> (try simp [g1]) <;> omega

theorem and_mask_or_nibble (x v : Nat) (hv : v < 16) :
    ((x &&& 0xFFFFFFF0) ||| v) &&& 0xf = v := by
  rw [Nat.and_distrib_right, Nat.and_assoc]
  have h1 : (0xFFFFFFF0 &&& 0xf : Nat) = 0 := by decide
  have h2 : v &&& 0xf = v := by
    have := Nat.and_pow_two_sub_one_eq_mod v 4
    simpa [Nat.mod_eq_of_lt hv] using this
  simp [h1, h2]

theorem or_one_and_one (x : Nat) : (x ||| 1) &&& 1 = 1 := by
  rw [Nat.and_distrib_right]
  rw [Nat.and_one_is_mod]
  have h : x % 2 = 0 ∨ x % 2 = 1 := by omega
  rcases h with h | h <;> rw [h] <;> decide

theorem or_one_mod_two (x : Nat) : (x ||| 1) % 2 = 1 := by
  rw [← Nat.and_one_is_mod]
  exact or_one_and_one x

theorem and_clear_bit0_mod_two (x : Nat) : (x &&& 0xFFFFFFFE) % 2 = 0 := by
  rw [← Nat.and_one_is_mod, Nat.and_assoc]
  have h : (0xFFFFFFFE &&& 1 : Nat) = 0 := by decide
  rw [h, Nat.and_zero]

/-- C6, amended: with the FIFO enabled, every byte delivered by the
back-end — from the first on, regardless of how `rx_count` compares with
the programmed `rx_trigger`, which is stored but never consulted — sets
IIR to `INT_RX`, sets `lsr.DR`, and drives the RX interrupt line whenever
`ier[0]` is set; and reading RBR when one byte remains clears `lsr.DR`,
makes IIR read `INT_NONE` and drops the interrupt line. -/
theorem thead_uart_fifo_rx_amended :
    (∀ (s : UartState) (b : Nat), s.fcr &&& 1 ≠ 0 →
      (thead_uart_receive s b).iir &&& 0xf = INT_RX ∧
      (thead_uart_receive s b).lsr &&& lsr_DR = 1 ∧
      (thead_uart_receive s b).irq_level = decide (s.ier &&& 1 ≠ 0) ∧
      (thead_uart_receive s b).rx_trigger = s.rx_trigger ∧
      (thead_uart_receive s b).rx_count = s.rx_count + 1) ∧
    (∀ s : UartState, s.fcr &&& 1 ≠ 0 → s.lcr &&& 0x80 = 0 → s.rx_count = 1 →
      (thead_uart_read s 0).2.lsr &&& lsr_DR = 0 ∧
      (thead_uart_read s 0).2.iir &&& 0xf = INT_NONE ∧
      (thead_uart_read s 0).2.irq_level = false) := by
  constructor
  · intro s b hf
    rw [Nat.and_one_is_mod] at hf
    by_cases href : s.usr &&& usr_REF ≠ 0 <;>
      by_cases h16 : s.rx_count + 1 = 16 <;>
        simp [thead_uart_receive, thead_uart_update, hf, href, h16, INT_RX,
          INT_TX, lsr_DR, and_mask_or_nibble, or_one_and_one, or_one_mod_two,
          Nat.and_one_is_mod, Nat.mod_two_ne_zero]
  · intro s hf hlcr h1
    rw [Nat.and_one_is_mod] at hf
    have hf1 : s.fcr % 2 = 1 := by omega
    simp only [thead_uart_read]
    norm_num
    simp [hlcr, hf1, h1, thead_uart_update, INT_NONE, INT_TX, INT_RX, lsr_DR,
      and_mask_or_nibble, bclr, usr_REF, usr_RFNE, and_clear_bit0_mod_two,
      Nat.and_one_is_mod]

theorem hart_write_size_one (st : ClicState) (env : CPUEnv)
    (addr b mode irq : Nat) :
    riscv_clic_hart_write st env addr b 1 mode irq =
      riscv_clic_hart_write1 st env addr b mode irq := by
  by_cases hns : st.num_sources ≤ irq
  · simp [riscv_clic_hart_write, riscv_clic_hart_write1, hns]
  · simp [riscv_clic_hart_write, hns]

theorem hart_read_size_one (st : ClicState) (addr irq : Nat) :
    riscv_clic_hart_read st addr 1 irq = riscv_clic_hart_read1 st addr irq := by
  by_cases hns : st.num_sources ≤ irq
  · simp [riscv_clic_hart_read, riscv_clic_hart_read1, hns]
  · simp [riscv_clic_hart_read, hns]

theorem num_le_ite_hart_write1 (a : ClicState) (env : CPUEnv)
    (addr b mode irq : Nat) :
    (if a.num_sources ≤ irq then some a
     else riscv_clic_hart_write1 a env addr b mode irq) =
      riscv_clic_hart_write1 a env addr b mode irq := by
  by_cases h : a.num_sources ≤ irq
  · simp [h, riscv_clic_hart_write1]
  · simp [h]

/-- C8, amended: a per-IRQ access of size 2–4 starting at byte 0 of the
quartet does dispatch byte-wise: the read is the concatenation of the
single-byte reads of bytes `0 .. size-1`, and the write is the single-byte
write of the *full* value at byte 0 (whose pending-bit logic uses the
whole value rather than its low byte) followed by the single-byte writes
of bytes `1 .. size-1`.  Accesses starting at bytes 1–3 touch only that
byte (see the counterexample), and an 8-byte access is not byte-wise
either: written bytes 4–7 are dropped and read bytes 4–7 re-read the same
quartet. -/
theorem clic_multibyte_access_amended (clic : ClicState) (env : CPUEnv)
    (mode irq value size : Nat) (hlo : 2 ≤ size) (hhi : size ≤ 4) :
    riscv_clic_hart_read clic (4 * irq) size irq =
      ((List.range size).drop 1).foldl
        (fun acc k =>
          acc ||| ((riscv_clic_hart_read clic (4 * irq + k) 1 irq &&& 0xFF) <<<
            (k * 8)))
        (riscv_clic_hart_read clic (4 * irq) 1 irq) ∧
    riscv_clic_hart_write clic env (4 * irq) value size mode irq =
      (riscv_clic_hart_write clic env (4 * irq) value 1 mode irq).bind
        (fun s0 => ((List.range size).drop 1).foldlM
          (fun st k => riscv_clic_hart_write st env (4 * irq + k)
            ((value >>> (k * 8)) &&& 0xFF) 1 mode irq) s0) := by
  have hsz : size = 2 ∨ size = 3 ∨ size = 4 := by omega
  have hm : 4 * irq % 4 = 0 := by omega
  constructor
  · by_cases hns : clic.num_sources ≤ irq
    · rcases hsz with h | h | h <;> rw [h] <;>
        simp [riscv_clic_hart_read, hns, List.range_succ]
    · rcases hsz with h | h | h <;> rw [h] <;>
        simp [riscv_clic_hart_read, hart_read_size_one, hns, hm,
          clic_read_bytes, List.range_succ, riscv_clic_hart_read1]
  · by_cases hns : clic.num_sources ≤ irq
    · rcases hsz with h | h | h <;> rw [h] <;>
        simp [riscv_clic_hart_write, hns, List.range_succ]
    · rcases hsz with h | h | h <;> rw [h] <;>
        simp [riscv_clic_hart_write, hart_write_size_one, hns, hm,
          clic_write_bytes, List.range_succ, num_le_ite_hart_write1]

theorem updf_le_one (f : Nat → Nat) (j v i : Nat) (hf : ∀ k, f k ≤ 1)
    (hv : v ≤ 1) : updf f j v i ≤ 1 := by
  unfold updf
  split
  · exact hv
  · exact hf i

theorem ite_one_zero_le_one (c : Prop) [Decidable c] :
    (if c then 1 else 0 : Nat) ≤ 1 := by
  split <;> omega

theorem update_intip_inv (clic : ClicState) (env : CPUEnv) (irq value : Nat)
    (h : clic_ip_ie_inv clic) :
    clic_ip_ie_inv (riscv_clic_update_intip clic env irq value) := by
  unfold riscv_clic_update_intip riscv_clic_next_interrupt
  apply clic_scan_inv
  intro i
  exact ⟨updf_le_one _ _ _ _ (fun k => (h k).1) (ite_one_zero_le_one _), (h i).2⟩

theorem update_intie_inv (clic : ClicState) (env : CPUEnv)
    (mode irq v : Nat) (s' : ClicState) (h : clic_ip_ie_inv clic)
    (he : riscv_clic_update_intie clic env mode irq v = some s') :
    clic_ip_ie_inv s' := by
  unfold riscv_clic_update_intie at he
  simp only [] at he
  split at he
  · exact absurd he (by simp)
  · obtain rfl : _ = s' := Option.some.inj he
    unfold riscv_clic_next_interrupt
    apply clic_scan_inv
    intro i
    exact ⟨(h i).1,
      updf_le_one _ _ _ _ (fun k => (h k).2) (ite_one_zero_le_one _)⟩

theorem next_interrupt_inv (clic : ClicState) (env : CPUEnv)
    (h : clic_ip_ie_inv clic) :
    clic_ip_ie_inv (riscv_clic_next_interrupt clic env) := by
  unfold riscv_clic_next_interrupt
  exact clic_scan_inv clic env clic.active_list h

theorem hart_write1_inv (clic : ClicState) (env : CPUEnv)
    (addr value mode irq : Nat) (s' : ClicState) (h : clic_ip_ie_inv clic)
    (he : riscv_clic_hart_write1 clic env addr value mode irq = some s') :
    clic_ip_ie_inv s' := by
  unfold riscv_clic_hart_write1 at he
  by_cases hns : clic.num_sources ≤ irq
  · rw [if_pos hns] at he
    obtain rfl : _ = s' := Option.some.inj he
    exact h
  · rw [if_neg hns] at he
    rcases hmod : addr % 4 with _ | _ | _ | k <;> rw [hmod] at he <;>
      simp only [] at he
    · split_ifs at he <;>
        first
        | (obtain rfl : _ = s' := Option.some.inj he
           first
           | exact update_intip_inv clic env irq value h
           | exact h)
    · split_ifs at he
      · exact update_intie_inv clic env mode irq value s' h he
      · obtain rfl : _ = s' := Option.some.inj he
        exact h
    · split_ifs at he <;>
        first
        | (obtain rfl : _ = s' := Option.some.inj he
           first
           | (apply next_interrupt_inv
              intro i
              exact h i)
           | exact h)
    · split_ifs at he <;>
        first
        | (obtain rfl : _ = s' := Option.some.inj he
           first
           | (apply next_interrupt_inv
              intro i
              exact h i)
           | exact h)

theorem clic_write_bytes_inv (env : CPUEnv) (addr value mode irq : Nat) :
    ∀ (l : List Nat) (clic s' : ClicState), clic_ip_ie_inv clic →
      clic_write_bytes env addr value mode irq clic l = some s' →
      clic_ip_ie_inv s' := by
  intro l
  induction l with
  | nil =>
    intro clic s' h he
    obtain rfl : _ = s' := Option.some.inj he
    exact h
  | cons i rest ih =>
    intro clic s' h he
    simp only [clic_write_bytes] at he
    obtain ⟨m, hm1, hm2⟩ := Option.bind_eq_some.mp he
    exact ih m s' (hart_write1_inv clic env (addr + i)
      ((value >>> (i * 8)) &&& 0xFF) mode irq m h hm1) hm2

theorem hart_write_inv (clic : ClicState) (env : CPUEnv)
    (addr value size mode irq : Nat) (s' : ClicState) (h : clic_ip_ie_inv clic)
    (he : riscv_clic_hart_write clic env addr value size mode irq = some s') :
    clic_ip_ie_inv s' := by
  unfold riscv_clic_hart_write at he
  split_ifs at he
  · obtain rfl : _ = s' := Option.some.inj he
    exact h
  · obtain ⟨m, hm1, hm2⟩ := Option.bind_eq_some.mp he
    exact clic_write_bytes_inv env addr value mode irq _ m s'
      (hart_write1_inv clic env addr value mode irq m h hm1) hm2
  · exact hart_write1_inv clic env addr value mode irq s' h he

theorem clic_write_cliccfg_ip_ie (clic : ClicState) (mode value : Nat) :
    (clic_write_cliccfg clic mode value).clicintip = clic.clicintip ∧
    (clic_write_cliccfg clic mode value).clicintie = clic.clicintie := by
  have h1 : (clic_write_cliccfg_nlbits clic mode value).clicintip = clic.clicintip ∧
      (clic_write_cliccfg_nlbits clic mode value).clicintie = clic.clicintie := by
    simp only [clic_write_cliccfg_nlbits]
    split_ifs <;> simp
  simp only [clic_write_cliccfg]
  set c1 := clic_write_cliccfg_nlbits clic mode value
  clear_value c1
  split_ifs <;> simp [h1.1, h1.2]

theorem riscv_clic_write_inv (clic : ClicState) (env : CPUEnv)
    (mode addr value size : Nat) (s' : ClicState) (h : clic_ip_ie_inv clic)
    (he : riscv_clic_write clic env mode addr value size = some s') :
    clic_ip_ie_inv s' := by
  unfold riscv_clic_write at he
  by_cases hA : clic.clic_size ≤ addr
  · rw [if_pos hA] at he
    exact absurd he (by simp)
  rw [if_neg hA] at he
  by_cases hB : env.priv < mode
  · rw [if_pos hB] at he
    obtain rfl : _ = s' := Option.some.inj he
    exact h
  rw [if_neg hB] at he
  by_cases hC : addr < CLIC_INTCTL_BASE
  · rw [if_pos hC] at he
    by_cases hD : addr % 4 ≠ 0
    · rw [if_pos hD] at he
      exact absurd he (by simp)
    rw [if_neg hD] at he
    simp only [] at he
    by_cases hE : addr / 4 = 0
    · rw [if_pos hE] at he
      obtain rfl : _ = s' := Option.some.inj he
      obtain ⟨g1, g2⟩ := clic_write_cliccfg_ip_ie clic mode value
      intro i
      rw [g1, g2]
      exact h i
    rw [if_neg hE] at he
    by_cases hF : CLIC_INTTRIG_START ≤ addr / 4 ∧ addr / 4 ≤ CLIC_INTTRIG_END
    · rw [if_pos hF] at he
      by_cases hG : value &&& CLIC_INTTRIG_IRQN ≤ clic.num_sources
      · rw [if_pos hG] at he
        obtain rfl : _ = s' := Option.some.inj he
        intro i
        exact h i
      · rw [if_neg hG] at he
        obtain rfl : _ = s' := Option.some.inj he
        exact h
    rw [if_neg hF] at he
    by_cases hH : addr / 4 = 2
    · rw [if_pos hH] at he
      by_cases hI : clic.version_v08 = true
      · rw [if_pos hI] at he
        obtain rfl : _ = s' := Option.some.inj he
        intro i
        exact h i
      · rw [if_neg hI] at he
        obtain rfl : _ = s' := Option.some.inj he
        exact h
    · rw [if_neg hH] at he
      obtain rfl : _ = s' := Option.some.inj he
      exact h
  · rw [if_neg hC] at he
    simp only [] at he
    split at he
    · exact absurd he (by simp)
    · exact hart_write_inv clic env (addr - CLIC_INTCTL_BASE) value size mode
        (riscv_clic_get_irq (addr - CLIC_INTCTL_BASE)) s' h he
    · obtain rfl : _ = s' := Option.some.inj he
      exact h

theorem set_irq_inv (clic : ClicState) (env : CPUEnv) (id level : Nat)
    (h : clic_ip_ie_inv clic) :
    clic_ip_ie_inv (riscv_clic_set_irq clic env id level) := by
  unfold riscv_clic_set_irq
  split <;>
    rcases ht : riscv_clic_get_trigger_type clic id with _ | _ | _ | k <;>
      first
      | exact update_intip_inv clic env id _ h
      | exact h

/-- C10: the stored `clicintip`/`clicintie` bytes are always 0 or 1 after
any CLIC operation — MMIO writes of arbitrary values, input-line events,
`clean_pending` — because every store normalizes with `!!value`; a
one-byte read of `clicintip[i]` or `clicintie[i]` therefore never returns
a value other than 0 or 1. -/
theorem clic_ip_ie_normalized (clic : ClicState) (env : CPUEnv)
    (h : clic_ip_ie_inv clic) :
    (∀ mode addr value size s',
      riscv_clic_write clic env mode addr value size = some s' →
      clic_ip_ie_inv s') ∧
    (∀ id level, clic_ip_ie_inv (riscv_clic_set_irq clic env id level)) ∧
    (∀ irq, clic_ip_ie_inv (riscv_clic_clean_pending clic irq)) ∧
    (∀ irq, riscv_clic_hart_read clic (4 * irq) 1 irq ≤ 1 ∧
            riscv_clic_hart_read clic (4 * irq + 1) 1 irq ≤ 1) := by
  refine ⟨?_, ?_, ?_, ?_⟩
  · intro mode addr value size s' he
    exact riscv_clic_write_inv clic env mode addr value size s' h he
  · intro id level
    exact set_irq_inv clic env id level h
  · intro irq
    intro i
    unfold riscv_clic_clean_pending
    refine ⟨?_, (h i).2⟩
    exact updf_le_one _ _ _ _ (fun k => (h k).1) (by omega)
  · intro irq
    have hm0 : 4 * irq % 4 = 0 := by omega
    have hm1 : (4 * irq + 1) % 4 = 1 := by omega
    by_cases hns : clic.num_sources ≤ irq
    · simp [riscv_clic_hart_read, riscv_clic_hart_read1, hns]
    · rw [hart_read_size_one, hart_read_size_one]
      unfold riscv_clic_hart_read1
      rw [if_neg hns, if_neg hns, hm0, hm1]
      exact ⟨(h irq).1, (h irq).2⟩

/-- Witness for C3 at the spec's `clicintctlbits = 3` examples: writing
`0x21`, `0x00`, `0xF0` reads back `0x3F`, `0x1F`, `0xFF`. -/
theorem clicintctl_write_readback_witness :
    (riscv_clic_write clic0 envM PRV_M (CLIC_INTCTL_BASE + 4 * 12 + 3) 0x21 1).bind
      (fun s => riscv_clic_read s envM PRV_M (CLIC_INTCTL_BASE + 4 * 12 + 3) 1) =
      some 0x3F ∧
    (riscv_clic_write clic0 envM PRV_M (CLIC_INTCTL_BASE + 4 * 12 + 3) 0x00 1).bind
      (fun s => riscv_clic_read s envM PRV_M (CLIC_INTCTL_BASE + 4 * 12 + 3) 1) =
      some 0x1F ∧
    (riscv_clic_write clic0 envM PRV_M (CLIC_INTCTL_BASE + 4 * 12 + 3) 0xF0 1).bind
      (fun s => riscv_clic_read s envM PRV_M (CLIC_INTCTL_BASE + 4 * 12 + 3) 1) =
      some 0xFF := by
  refine ⟨?_, ?_, ?_⟩
  · rw [clicintctl_write_readback clic0 envM PRV_M 12 0x21 (by decide) (by decide)
      (by decide) (by decide) (by decide)]
    decide
  · rw [clicintctl_write_readback clic0 envM PRV_M 12 0x00 (by decide) (by decide)
      (by decide) (by decide) (by decide)]
    decide
  · rw [clicintctl_write_readback clic0 envM PRV_M 12 0xF0 (by decide) (by decide)
      (by decide) (by decide) (by decide)]
    decide

/-- Witness for C4: IRQ 12 of `clic0` is positive-level triggered
(`attr = 0`), so a software write of 1 to its pending byte leaves the
state untouched. -/
theorem clicintip_level_write_noop_witness :
    riscv_clic_write clic0 envM PRV_M (CLIC_INTCTL_BASE + 4 * 12) 1 1 =
      some clic0 :=
  clicintip_level_write_noop clic0 envM PRV_M 12 1 (by decide) (by decide)
    (by decide)

/-- Witness for the amended C6 at a concrete state: FIFO just enabled with
threshold 4, first byte received raises `INT_RX`; reading RBR with one
byte queued returns IIR to `INT_NONE`. -/
theorem thead_uart_fifo_rx_amended_witness :
    (thead_uart_write uart_reset 8 0x41).fcr &&& 1 ≠ 0 ∧
    (thead_uart_receive (thead_uart_write uart_reset 8 0x41) 0x61).iir &&& 0xf =
      INT_RX ∧
    (thead_uart_read
      (thead_uart_receive (thead_uart_write uart_reset 8 0x41) 0x61) 0).2.iir &&&
      0xf = INT_NONE := by
  refine ⟨by decide, ?_, ?_⟩
  · exact (thead_uart_fifo_rx_amended.1 (thead_uart_write uart_reset 8 0x41)
      0x61 (by decide)).1
  · exact ((thead_uart_fifo_rx_amended.2
      (thead_uart_receive (thead_uart_write uart_reset 8 0x41) 0x61)
      (by decide) (by decide) (by decide)).2).1

/-- Witness for C7: on the M-only `clic0`, writing `nmbits = 1` is out of
range and the stored field stays 0. -/
theorem cliccfg_nmbits_warl_witness :
    (riscv_clic_write clic0 envM PRV_M 0 0x10 4).map (fun s => s.nmbits) =
      some 0 := by
  rw [cliccfg_nmbits_warl clic0 envM 0x10 4 (by decide) (by decide)]
  decide

/-- Witness for the amended C8: on `c8_clic` a 2-byte read at byte 0 of
IRQ 0 equals the concatenation of its two byte reads. -/
theorem clic_multibyte_access_amended_witness :
    riscv_clic_hart_read c8_clic (4 * 0) 2 0 =
      ((List.range 2).drop 1).foldl
        (fun acc k =>
          acc ||| ((riscv_clic_hart_read c8_clic (4 * 0 + k) 1 0 &&& 0xFF) <<<
            (k * 8)))
        (riscv_clic_hart_read c8_clic (4 * 0) 1 0) :=
  (clic_multibyte_access_amended c8_clic envM PRV_M 0 0x0201 2 (by decide)
    (by decide)).1

/-- Witness for C10: the zero-initialized `clic0` satisfies the 0/1
invariant, and it is preserved across a concrete input-line event. -/
theorem clic_ip_ie_normalized_witness :
    clic_ip_ie_inv clic0 ∧
    clic_ip_ie_inv (riscv_clic_set_irq clic0 envM 0 1) := by
  have hinv : clic_ip_ie_inv clic0 := fun i => ⟨Nat.zero_le 1, Nat.zero_le 1⟩
  exact ⟨hinv, (clic_ip_ie_normalized clic0 envM hinv).2.1 0 1⟩

end ClicModel
